import Mathlib

/-!
Verification development for the configuration-space search engine of
`model_analyzer` (files `run_config_generator.py` and
`undirected_run_config_generator.py`).

Part 1 embeds the composite exhaustive enumerator `RunConfigGenerator`.
The per-model sub-enumerator `ModelRunConfigGenerator` is an external
collaborator (its source is not part of this repository slice); following
the specification it is a finite lazy sequence of configuration objects,
parameterized by a default-only flag, yielding exactly one configuration
when restricted to defaults and all legal configurations otherwise.

The consumer/suspension protocol of the Python generator is rendered as an
explicit event trace: producing a RunConfig, the consumer supplying
feedback (`RunConfigGenerator.set_last_results`, which appends the
measurements to the buffer `_curr_results[index]` of every depth), a depth
forwarding its buffered feedback to its own sub-enumerator and clearing
the buffer (`_send_results_to_generator`), and a depth asking its
sub-enumerator for the next configuration (the `for` loop in
`_generate_subset` advancing, including the initial and the final,
exhausted, request).  Each `ask` event is annotated with a snapshot of the
buffers, of what every depth's sub-enumerator has received so far, and of
all feedback supplied so far, taken at the moment of the request.
-/

/-- State threaded through the composite traversal: `bufs` models
`_curr_results` (one pending-feedback buffer per model index), `recs`
records the concatenation of everything each depth's sub-enumerator has
been sent via `set_last_results` so far, `supplied` is the concatenation
of all feedback the consumer has supplied so far, and `k` counts produced
RunConfigs. -/
structure CState (Ms : Type) where
  bufs : List (List Ms)
  recs : List (List Ms)
  supplied : List Ms
  k : Nat

/-- Observable events of the composite enumerator run. -/
inductive CEvent (Cfg Ms Env : Type) where
  | produce (env : Env) (cfgs : List Cfg)
  | feedback (ms : List Ms)
  | forward (depth : Nat) (ms : List Ms)
  | ask (depth : Nat) (bufs recs : List (List Ms)) (supplied : List Ms)
deriving DecidableEq

/-- Modelled from the spec: a model specification as the composite
enumerator sees it (`ConfigModelProfileSpec` is external).  It exposes a
server-environment descriptor and, through its sub-enumerator, a single
default configuration and the list of all legal configurations. -/
structure EModel (Cfg Env : Type) where
  triton_server_environment : Env
  default_config : Cfg
  all_configs : List Cfg

/-- Modelled from the spec: the sequence of configurations yielded by the
per-model sub-enumerator `ModelRunConfigGenerator` (external collaborator):
exactly one configuration when restricted to defaults, otherwise all legal
configurations. -/
def subCfgs {Cfg Env : Type} (m : EModel Cfg Env) (defaultOnly : Bool) : List Cfg :=
  if defaultOnly then [m.default_config] else m.all_configs

/-- Effect of `RunConfigGenerator.set_last_results` on the buffers: the
measurements are appended to `_curr_results[index]` for every index. -/
def extendAll {Ms : Type} (ms : List Ms) (bufs : List (List Ms)) : List (List Ms) :=
  bufs.map (fun b => b ++ ms)

/-- One activation of the `for model_run_config in mrcg.get_configs()` loop
of `_generate_subset` at a given depth, iterating over the remaining
configurations `cs` of that depth's sub-enumerator.  `body` is the loop
body up to (but excluding) `_send_results_to_generator`: producing a
RunConfig plus receiving consumer feedback at the deepest depth, or the
recursive traversal at shallower depths.  After the body, the buffer of
this depth is forwarded to this depth's sub-enumerator and cleared
(`_send_results_to_generator`), and then the loop asks the sub-enumerator
for its next configuration. -/
def genLoop {Cfg Ms Env : Type}
    (body : Cfg → CState Ms → CState Ms × List (CEvent Cfg Ms Env)) (depth : Nat) :
    List Cfg → CState Ms → CState Ms × List (CEvent Cfg Ms Env)
  | [], s => (s, [CEvent.ask depth s.bufs s.recs s.supplied])
  | c :: cs, s =>
    let r := body c s
    let buf := r.1.bufs.getD depth []
    let s2 : CState Ms :=
      { bufs := r.1.bufs.set depth [],
        recs := r.1.recs.set depth (r.1.recs.getD depth [] ++ buf),
        supplied := r.1.supplied, k := r.1.k }
    let t := genLoop body depth cs s2
    (t.1, CEvent.ask depth s.bufs s.recs s.supplied ::
      (r.2 ++ CEvent.forward depth buf :: t.2))

/-- Trace semantics of `RunConfigGenerator._generate_subset(index,
default_only)`: `models` are the models from the current depth onward,
`pre` the configurations currently fixed at shallower depths
(`_curr_model_run_configs[0..depth-1]`), and `fb k` the feedback the
consumer supplies after the `k`-th produced RunConfig.  At the deepest
depth a complete RunConfig is produced (`_make_run_config`, carrying the
shared `_triton_env`) and the consumer's feedback is applied to every
buffer; at shallower depths the traversal recurses. -/
def genSubset {Cfg Ms Env : Type} (fb : Nat → List Ms) (env : Env) (dOnly : Bool) :
    List (EModel Cfg Env) → Nat → List Cfg → CState Ms →
      CState Ms × List (CEvent Cfg Ms Env)
  | [], _, _, s => (s, [])
  | m :: rest, depth, pre, s =>
    genLoop
      (fun c s' =>
        match rest with
        | [] =>
          ({ bufs := extendAll (fb s'.k) s'.bufs, recs := s'.recs,
             supplied := s'.supplied ++ fb s'.k, k := s'.k + 1 },
           [CEvent.produce env (pre ++ [c]), CEvent.feedback (fb s'.k)])
        | _ :: _ => genSubset fb env dOnly rest (depth + 1) (pre ++ [c]) s')
      depth (subCfgs m dOnly) s

/-- Trace of `RunConfigGenerator.get_configs` / `_get_next_config`: a full
default-only traversal followed by a full unrestricted traversal, starting
from empty buffers (`_curr_results = [[] for n in range(num_models)]`). -/
def getConfigsC {Cfg Ms Env : Type} (fb : Nat → List Ms) (env : Env)
    (models : List (EModel Cfg Env)) : List (CEvent Cfg Ms Env) :=
  let s0 : CState Ms :=
    { bufs := List.replicate models.length [], recs := List.replicate models.length [],
      supplied := [], k := 0 }
  let r1 := genSubset fb env true models 0 [] s0
  let r2 := genSubset fb env false models 0 [] r1.1
  r1.2 ++ r2.2

/-- The RunConfigs produced along a trace, each as the shared server
environment paired with the per-model configuration choices, in model
order. -/
def producedOf {Cfg Ms Env : Type} (tr : List (CEvent Cfg Ms Env)) :
    List (Env × List Cfg) :=
  tr.filterMap (fun e =>
    match e with
    | CEvent.produce env cfgs => some (env, cfgs)
    | _ => none)

/-- Errors raised by `RunConfigGenerator.determine_triton_server_env`:
indexing `models[0]` on an empty list, or the explicit
`TritonModelAnalyzerException` on mismatching environments. -/
inductive TritonErr where
  | indexError
  | mismatch
deriving DecidableEq

/-- Embedding of the classmethod `RunConfigGenerator.determine_triton_server_env`:
take model 0's environment and raise if any model's environment differs
from it, otherwise return it. -/
def determine_triton_server_env {M Env : Type} [DecidableEq Env] (envOf : M → Env) :
    List M → Except TritonErr Env
  | [] => Except.error TritonErr.indexError
  | m0 :: ms =>
    if (m0 :: ms).all (fun m => decide (envOf m = envOf m0)) then
      Except.ok (envOf m0)
    else Except.error TritonErr.mismatch

/-- Construction plus run of the composite enumerator: `__init__` performs
the server-environment consistency check (raising aborts construction and
no RunConfig is ever produced), then the trace is available. -/
def run_composite {Cfg Ms Env : Type} [DecidableEq Env] (fb : Nat → List Ms)
    (models : List (EModel Cfg Env)) : Except TritonErr (List (CEvent Cfg Ms Env)) :=
  (determine_triton_server_env EModel.triton_server_environment models).map
    (fun e => getConfigsC fb e models)

/-!
Part 2 embeds the hill-climbing driver `UndirectedRunConfigGenerator`.
The collaborators `Coordinate`, `CoordinateData`, `Neighborhood`,
`SearchConfig`, `Dimension` lookup, `ModelVariantNameManager`,
`BaseModelConfigGenerator.make_model_config`, `PerfAnalyzerConfig`,
`ModelRunConfig` and `RunConfig` are external to this repository slice and
are modelled from the specification where their behaviour matters; the
driver's own control flow is translated from the source.  Coordinates are
an abstract type with decidable equality (the spec's integer vectors
compared by value).
-/

/-- Modelled from the spec: a Measurement exposes at least a throughput
metric (`get_non_gpu_metric_value("perf_throughput")`). -/
structure Measurement (Thr : Type) where
  perf_throughput : Thr

/-- Modelled from the spec: `CoordinateData`, the shared mapping from
Coordinate to visit count (0 until visited) and optional throughput
(unknown until measured). -/
structure CoordinateData (Coord Thr : Type) where
  visit_counts : Coord → Nat
  throughputs : Coord → Option Thr

/-- Fresh `CoordinateData()`: no visits, no throughputs. -/
def CoordinateData.empty {Coord Thr : Type} : CoordinateData Coord Thr :=
  { visit_counts := fun _ => 0, throughputs := fun _ => none }

/-- Modelled from the spec: `CoordinateData.increment_visit_count` adds one
to the visit count of the given coordinate. -/
def CoordinateData.increment_visit_count {Coord Thr : Type} [DecidableEq Coord]
    (cd : CoordinateData Coord Thr) (c : Coord) : CoordinateData Coord Thr :=
  { cd with visit_counts := fun x => if x = c then cd.visit_counts x + 1 else cd.visit_counts x }

/-- Modelled from the spec: `CoordinateData.set_throughput` records a
throughput for the given coordinate. -/
def CoordinateData.set_throughput {Coord Thr : Type} [DecidableEq Coord]
    (cd : CoordinateData Coord Thr) (c : Coord) (t : Thr) : CoordinateData Coord Thr :=
  { cd with throughputs := fun x => if x = c then some t else cd.throughputs x }

/-- Accessor `CoordinateData.get_throughput`. -/
def CoordinateData.get_throughput {Coord Thr : Type}
    (cd : CoordinateData Coord Thr) (c : Coord) : Option Thr :=
  cd.throughputs c

/-- Accessor `CoordinateData.get_visit_count`. -/
def CoordinateData.get_visit_count {Coord Thr : Type}
    (cd : CoordinateData Coord Thr) (c : Coord) : Nat :=
  cd.visit_counts c

/-- Modelled from the spec: the concrete parameter values the Dimension
lookup resolves a coordinate component to for one model
(`dims.get_values_for_coordinate(coordinate)[model_num]`). -/
structure DimensionValues where
  max_batch_size : Nat
  instance_count : Nat
  concurrency : Nat
deriving DecidableEq

/-- The `param_combo` dictionary built in `_get_next_model_config`; the
`dynamic_batching` entry is the constant empty dictionary and is omitted,
the instance-group kind and rate-limiter priority are the literal
constants from the source. -/
structure ParamCombo where
  max_batch_size : Nat
  instance_count : Nat
  instance_kind : String
  rate_limiter_priority : Nat
deriving DecidableEq

/-- Values stored in a perf-analyzer configuration dictionary. -/
inductive PerfVal where
  | num (n : Nat)
  | str (s : String)
deriving DecidableEq

/-- Modelled from the spec: `PerfAnalyzerConfig.update_config` applies the
entries of the given dictionary in order, later entries for the same key
overriding earlier ones. -/
def update_config (params : List (String × PerfVal)) (cfg : String → Option PerfVal) :
    String → Option PerfVal :=
  params.foldl (fun acc kv => fun q => if kv.1 = q then some kv.2 else acc q) cfg

/-- Modelled from the spec: the generated model configuration returned by
`BaseModelConfigGenerator.make_model_config`: it carries the parameter set
it was built from and a variant name (`get_field('name')`) obtained from
the `ModelVariantNameManager` (an idempotent assignment, modelled as a
pure function supplied by the context). -/
structure GeneratedModelConfig where
  name : String
  combo : ParamCombo

/-- Modelled from the spec: a model specification as the driver sees it
(`ConfigModelProfileSpec`): a name, a server-environment descriptor and
perf-analyzer flags. -/
structure ModelProfileSpec (Env : Type) where
  model_name : String
  triton_server_environment : Env
  perf_analyzer_flags : List (String × PerfVal)

/-- Embedding of `ModelRunConfig`: pairing of a generated model configuration and a
perf-analyzer configuration for one model. -/
structure ModelRunConfigD where
  model_name : String
  model_config : GeneratedModelConfig
  perf_config : String → Option PerfVal

/-- Embedding of `RunConfig`: the shared server environment plus the ordered list of
per-model ModelRunConfigs. -/
structure RunConfigD (Env : Type) where
  triton_env : Env
  model_run_configs : List ModelRunConfigD

/-- Embedding of `RunConfig.add_model_run_config`: appends one ModelRunConfig. -/
def RunConfigD.add_model_run_config {Env : Type} (rc : RunConfigD Env)
    (mrc : ModelRunConfigD) : RunConfigD Env :=
  { rc with model_run_configs := rc.model_run_configs ++ [mrc] }

/-- Modelled from the spec: the `SearchConfig` collaborator: minimum index
vector, radius, step magnitude, neighborhood configuration (built without
an argument at construction, with an explicit radius on recreation) and
the Dimension lookup. -/
structure SearchConfigM (Coord NbhCfg : Type) where
  min_indexes : Coord
  radius : Nat
  step_magnitude : Nat
  neighborhood_config : Option Nat → NbhCfg
  dimension_values : Coord → Nat → DimensionValues

/-- Modelled from the spec: the operations of a `Neighborhood` built
around one center.  Each operation consults the shared `CoordinateData`
as it stands when the operation is invoked.  The field names abbreviate
the source methods `enough_coordinates_initialized`,
`pick_coordinate_to_initialize`, `get_nearest_unvisited_neighbor` and
`calculate_new_coordinate`; the selection and weighting policies are the
pluggable, deterministic strategy the spec leaves abstract. -/
structure NeighborhoodOps (Coord Thr : Type) where
  enough_coordinates : CoordinateData Coord Thr → Bool
  pick_coordinate : CoordinateData Coord Thr → Option Coord
  get_nearest_unvisited_neighbor : CoordinateData Coord Thr → Coord → Option Coord
  calculate_new_coordinate : CoordinateData Coord Thr → Nat → Coord

/-- The immutable construction-time data of the driver: search config,
models, the shared server environment computed at construction, the
Neighborhood factory (`Neighborhood(config, coordinate_data, center)`) and
the variant-name assignment. -/
structure DriverContext (Coord Thr Env NbhCfg : Type) where
  search_config : SearchConfigM Coord NbhCfg
  models : List (ModelProfileSpec Env)
  triton_env : Env
  neighborhood : NbhCfg → CoordinateData Coord Thr → Coord → NeighborhoodOps Coord Thr
  variant_name : ModelProfileSpec Env → ParamCombo → String

/-- The mutable state of `UndirectedRunConfigGenerator`. -/
structure DriverState (Coord Thr : Type) where
  coordinate_data : CoordinateData Coord Thr
  current_coordinate : Coord
  coordinate_to_measure : Option Coord
  nbh : NeighborhoodOps Coord Thr
  radius_offset : Nat
  magnitude_offset : Nat
  done : Bool

/-- State established by `UndirectedRunConfigGenerator.__init__`: fresh
CoordinateData, current coordinate = the per-model minimum index vector,
the coordinate to measure = the current coordinate, a Neighborhood built
around it, offsets zero, not done. -/
def init_state {Coord Thr Env NbhCfg : Type}
    (ctx : DriverContext Coord Thr Env NbhCfg) : DriverState Coord Thr :=
  let cd : CoordinateData Coord Thr := CoordinateData.empty
  let cur := ctx.search_config.min_indexes
  { coordinate_data := cd, current_coordinate := cur,
    coordinate_to_measure := some cur,
    nbh := ctx.neighborhood (ctx.search_config.neighborhood_config none) cd cur,
    radius_offset := 0, magnitude_offset := 0, done := false }

/-- Python exceptions that `set_last_results` can raise. -/
inductive PyErr where
  | typeError
  | indexError
  | assertionError
deriving DecidableEq

/-- Embedding of `UndirectedRunConfigGenerator.set_last_results`: first
the visit count of the coordinate being measured is incremented
unconditionally; then, only if the measurements list is not `None` and its
first element is not `None`, the length-one assertion is checked and the
throughput of the first measurement is recorded for that coordinate.  A
raised Python exception is returned alongside the state as mutated up to
the raise (an empty list raises `IndexError` on `measurements[0]`, a
longer valid list fails the assertion; a `None` coordinate would fail
inside `increment_visit_count`). -/
def set_last_results {Coord Thr : Type} [DecidableEq Coord]
    (s : DriverState Coord Thr)
    (measurements : Option (List (Option (Measurement Thr)))) :
    DriverState Coord Thr × Except PyErr Unit :=
  match s.coordinate_to_measure with
  | none => (s, Except.error PyErr.typeError)
  | some c =>
    let s1 := { s with coordinate_data := s.coordinate_data.increment_visit_count c }
    match measurements with
    | none => (s1, Except.ok ())
    | some [] => (s1, Except.error PyErr.indexError)
    | some (none :: _) => (s1, Except.ok ())
    | some (some m :: rest) =>
      if (some m :: rest).length = 1 then
        ({ s1 with coordinate_data := s1.coordinate_data.set_throughput c m.perf_throughput },
         Except.ok ())
      else (s1, Except.error PyErr.assertionError)

/-- Embedding of `_get_last_results`: the throughput recorded for the coordinate being
measured (the `None` coordinate case is unreachable under the consumer
protocol, since producing a RunConfig for it fails first). -/
def get_last_results {Coord Thr : Type} (s : DriverState Coord Thr) : Option Thr :=
  match s.coordinate_to_measure with
  | some c => s.coordinate_data.get_throughput c
  | none => none

/-- Embedding of `_handle_invalid_last_results`: fall back to the nearest unvisited
neighbor of the coordinate just measured; the center is untouched. -/
def handle_invalid_last_results {Coord Thr : Type} (s : DriverState Coord Thr) :
    DriverState Coord Thr :=
  match s.coordinate_to_measure with
  | some c =>
    { s with coordinate_to_measure :=
        s.nbh.get_nearest_unvisited_neighbor s.coordinate_data c }
  | none => s

/-- Embedding of `_determine_if_done`: the done flag after comparing the new coordinate
against the (still unchanged) current coordinate and its visit count
against 2. -/
def determine_if_done {Coord Thr : Type} [DecidableEq Coord]
    (s : DriverState Coord Thr) (new_c : Coord) : Bool :=
  (s.done || decide (new_c = s.current_coordinate))
    || decide (2 ≤ s.coordinate_data.get_visit_count new_c)

/-- Embedding of `_recreate_neighborhood`: a fresh Neighborhood at the configured
radius (plus offset) around the current coordinate. -/
def recreate_neighborhood {Coord Thr Env NbhCfg : Type}
    (ctx : DriverContext Coord Thr Env NbhCfg) (s : DriverState Coord Thr) :
    DriverState Coord Thr :=
  let nb :=
    ctx.neighborhood
      (ctx.search_config.neighborhood_config (some (ctx.search_config.radius + s.radius_offset)))
      s.coordinate_data s.current_coordinate
  { s with nbh := nb }

/-- Embedding of `_take_step`: compute the new coordinate from the neighborhood at the
configured magnitude, update the done flag, adopt the new coordinate as
center and as next coordinate to measure, rebuild the neighborhood. -/
def take_step {Coord Thr Env NbhCfg : Type} [DecidableEq Coord]
    (ctx : DriverContext Coord Thr Env NbhCfg) (s : DriverState Coord Thr) :
    DriverState Coord Thr :=
  let magnitude := ctx.search_config.step_magnitude + s.magnitude_offset
  let new_c := s.nbh.calculate_new_coordinate s.coordinate_data magnitude
  let s1 := { s with done := determine_if_done s new_c }
  let s2 := { s1 with current_coordinate := new_c, coordinate_to_measure := some new_c }
  recreate_neighborhood ctx s2

/-- Embedding of `_pick_coordinate_to_initialize` (wrapped by `_step`): choose an
unsampled neighborhood member to measure next. -/
def pick_coordinate_to_init {Coord Thr : Type} (s : DriverState Coord Thr) :
    DriverState Coord Thr :=
  { s with coordinate_to_measure := s.nbh.pick_coordinate s.coordinate_data }

/-- Embedding of `UndirectedRunConfigGenerator._step`: invalid last
results fall back to the nearest unvisited neighbor; otherwise either take
a climbing step (enough neighbors measured) or pick a neighborhood
coordinate to sample; finally, a missing next coordinate marks the
generator done. -/
def step_generator {Coord Thr Env NbhCfg : Type} [DecidableEq Coord]
    (ctx : DriverContext Coord Thr Env NbhCfg) (s : DriverState Coord Thr) :
    DriverState Coord Thr :=
  let s1 :=
    match get_last_results s with
    | none => handle_invalid_last_results s
    | some _ =>
      if s.nbh.enough_coordinates s.coordinate_data then take_step ctx s
      else pick_coordinate_to_init s
  if s1.coordinate_to_measure = none then { s1 with done := true } else s1

/-- Embedding of `_get_coordinate_values`: Dimension lookup for one model index. -/
def get_coordinate_values {Coord Thr Env NbhCfg : Type}
    (ctx : DriverContext Coord Thr Env NbhCfg) (c : Coord) (key : Nat) : DimensionValues :=
  ctx.search_config.dimension_values c key

/-- Embedding of `_get_next_model_config`: resolve the coordinate through
the Dimension tables, build the `param_combo` (batch size and instance
count from the dimension values, constant kind and priority) and obtain
the generated model configuration carrying a variant name. -/
def get_next_model_config {Coord Thr Env NbhCfg : Type}
    (ctx : DriverContext Coord Thr Env NbhCfg) (c : Coord) (model_num : Nat)
    (m : ModelProfileSpec Env) : GeneratedModelConfig :=
  let dv := get_coordinate_values ctx c model_num
  let combo : ParamCombo :=
    { max_batch_size := dv.max_batch_size, instance_count := dv.instance_count,
      instance_kind := ("KIND_GPU"), rate_limiter_priority := 1 }
  { name := ctx.variant_name m combo, combo := combo }

/-- Embedding of `_get_next_perf_analyzer_config`: a fresh perf-analyzer
configuration updated with the six parameters from the source (the
concurrency range coming from the Dimension lookup) and then with the
model's own perf-analyzer flags. -/
def get_next_perf_analyzer_config {Coord Thr Env NbhCfg : Type}
    (ctx : DriverContext Coord Thr Env NbhCfg) (c : Coord) (variant : String)
    (model_num : Nat) (m : ModelProfileSpec Env) : String → Option PerfVal :=
  let dv := get_coordinate_values ctx c model_num
  let params : List (String × PerfVal) :=
    [(("model-name"), PerfVal.str variant),
     (("latency-report-file"), PerfVal.str (variant ++ ("-results.csv"))),
     (("measurement-mode"), PerfVal.str ("count_windows")),
     (("batch-size"), PerfVal.num 1),
     (("verbose-csv"), PerfVal.str ("--verbose-csv")),
     (("concurrency-range"), PerfVal.num dv.concurrency)]
  update_config m.perf_analyzer_flags (update_config params (fun _ => none))

/-- Embedding of `_get_next_model_run_config` for model number
`model_num`. -/
def get_next_model_run_config {Coord Thr Env NbhCfg : Type}
    (ctx : DriverContext Coord Thr Env NbhCfg) (c : Coord) (model_num : Nat)
    (m : ModelProfileSpec Env) : ModelRunConfigD :=
  let mc := get_next_model_config ctx c model_num m
  let pac := get_next_perf_analyzer_config ctx c mc.name model_num m
  { model_name := m.model_name, model_config := mc, perf_config := pac }

/-- Embedding of `_get_next_run_config`: a RunConfig carrying the shared
server environment, to which the ModelRunConfig of every model is added in
model order. -/
def get_next_run_config {Coord Thr Env NbhCfg : Type}
    (ctx : DriverContext Coord Thr Env NbhCfg) (c : Coord) : RunConfigD Env :=
  (ctx.models.enum).foldl
    (fun rc im => rc.add_model_run_config (get_next_model_run_config ctx c im.1 im.2))
    { triton_env := ctx.triton_env, model_run_configs := [] }

/-- Observable outcome of one pull on the `get_configs` generator: either
a RunConfig is yielded, or the pull raises inside `_get_next_run_config`
because the coordinate to measure is `None` (the Dimension lookup cannot
resolve it); the `while True:` loop never raises `StopIteration`. -/
inductive PullOutcome (Env : Type) where
  | config (rc : RunConfigD Env)
  | crash

/-- One pull on the suspended generator: build and yield the RunConfig for
the coordinate to measure, or crash when it is `None`. -/
def driver_pull {Coord Thr Env NbhCfg : Type}
    (ctx : DriverContext Coord Thr Env NbhCfg) (s : DriverState Coord Thr) :
    PullOutcome Env :=
  match s.coordinate_to_measure with
  | some c => PullOutcome.config (get_next_run_config ctx c)
  | none => PullOutcome.crash

/-- The driver state before the `k`-th pull, under the cooperative
protocol: the consumer supplies feedback `fb k` after the `k`-th produced
RunConfig, and the resumed generator runs `_step` before building the next
RunConfig. -/
def driver_states {Coord Thr Env NbhCfg : Type} [DecidableEq Coord]
    (ctx : DriverContext Coord Thr Env NbhCfg)
    (fb : Nat → Option (List (Option (Measurement Thr)))) : Nat → DriverState Coord Thr
  | 0 => init_state ctx
  | k + 1 => step_generator ctx (set_last_results (driver_states ctx fb k) (fb k)).1

/-- The outcome of the `k`-th pull on `get_configs`. -/
def driver_outputs {Coord Thr Env NbhCfg : Type} [DecidableEq Coord]
    (ctx : DriverContext Coord Thr Env NbhCfg)
    (fb : Nat → Option (List (Option (Measurement Thr)))) (k : Nat) : PullOutcome Env :=
  driver_pull ctx (driver_states ctx fb k)

/-- Construction of the driver (`UndirectedRunConfigGenerator.__init__`):
the server-environment consistency check runs first; on mismatch the
exception aborts construction and no RunConfig is ever produced. -/
def make_driver_context {Coord Thr Env NbhCfg : Type} [DecidableEq Env]
    (sc : SearchConfigM Coord NbhCfg) (models : List (ModelProfileSpec Env))
    (factory : NbhCfg → CoordinateData Coord Thr → Coord → NeighborhoodOps Coord Thr)
    (vn : ModelProfileSpec Env → ParamCombo → String) :
    Except TritonErr (DriverContext Coord Thr Env NbhCfg) :=
  (determine_triton_server_env
      (fun m : ModelProfileSpec Env => m.triton_server_environment) models).map
    (fun e =>
      { search_config := sc, models := models, triton_env := e,
        neighborhood := factory, variant_name := vn })

/-!
Invariant-level definitions used to state the feedback-before-advance
property of the composite enumerator, and the pure description of its
produced RunConfigs.
-/

/-- All buffers from depth `d` upward are empty. -/
def EmptyFrom {Ms : Type} (s : CState Ms) (d : Nat) : Prop :=
  ∀ j, d ≤ j → s.bufs.getD j [] = []

/-- Feedback conservation: for every depth, what its sub-enumerator has
received followed by what is still buffered for it is exactly all feedback
supplied so far (and the bookkeeping lists line up). -/
def CInv {Ms : Type} (s : CState Ms) : Prop :=
  s.recs.length = s.bufs.length ∧
    ∀ j, j < s.bufs.length → s.recs.getD j [] ++ s.bufs.getD j [] = s.supplied

/-- Property of an `ask` snapshot: at the moment a depth's sub-enumerator
is asked for its next configuration, the buffer of that depth is empty
(its buffered feedback has been forwarded to it and cleared first), and
for every depth the feedback received by its sub-enumerator followed by
its still-buffered feedback is all feedback supplied so far — so feedback
reaches a depth's sub-enumerator exactly when that depth advances, and
before that it sits only in that depth's buffer. -/
def AskOk {Cfg Ms Env : Type} : CEvent Cfg Ms Env → Prop
  | CEvent.ask depth bufs recs supplied =>
    bufs.getD depth [] = [] ∧ recs.length = bufs.length ∧
      ∀ j, j < bufs.length → recs.getD j [] ++ bufs.getD j [] = supplied
  | _ => True

/-- Pure description of the RunConfigs the nested traversal produces:
for each configuration of the first remaining model, recurse with it
appended to the fixed prefix; at the last model each configuration
completes one RunConfig. -/
def producedList {Cfg Env : Type} (env : Env) (dOnly : Bool) :
    List (EModel Cfg Env) → List Cfg → List (Env × List Cfg)
  | [], _ => ([] : List (Env × List Cfg))
  | [m], pre => (subCfgs m dOnly).map (fun c => (env, pre ++ [c]))
  | m :: m2 :: rest, pre =>
    ((subCfgs m dOnly).map
      (fun c => producedList env dOnly (m2 :: rest) (pre ++ [c]))).flatten

/-- Last value bound to a key by a parameter list, mirroring dictionary
update order (later entries win). -/
def last_value (key : String) : List (String × PerfVal) → Option PerfVal
  | [] => none
  | kv :: l =>
    match last_value key l with
    | some v => some v
    | none => if kv.1 = key then some kv.2 else none

/-!
Concrete instances used for witnesses and for evaluating the code at the
failing inputs of the non-terminating `get_configs` loop.
-/

/-- A Neighborhood policy over `Nat` coordinates describing a flat,
exhausted landscape: sampling is always sufficient, there is no neighbor
left to sample or to visit, and the weighted step never leaves the
center. -/
def flatNbh : Unit → CoordinateData Nat Nat → Nat → NeighborhoodOps Nat Nat :=
  fun _ _ center =>
    { enough_coordinates := fun _ => true,
      pick_coordinate := fun _ => none,
      get_nearest_unvisited_neighbor := fun _ _ => none,
      calculate_new_coordinate := fun _ _ => center }

/-- A minimal concrete search configuration. -/
def searchCfg0 : SearchConfigM Nat Unit :=
  { min_indexes := 0, radius := 1, step_magnitude := 1,
    neighborhood_config := fun _ => (),
    dimension_values := fun _ _ => { max_batch_size := 1, instance_count := 1, concurrency := 1 } }

/-- A single concrete model specification. -/
def model0 : ModelProfileSpec Nat :=
  { model_name := ("modelA"), triton_server_environment := 0, perf_analyzer_flags := [] }

/-- A concrete driver over one model and the flat neighborhood policy. -/
def ctxFlat : DriverContext Nat Nat Nat Unit :=
  { search_config := searchCfg0, models := [model0], triton_env := 0,
    neighborhood := flatNbh, variant_name := fun _ _ => ("modelA_config_0") }

/-- Feedback schedule: every run reports one valid measurement with
throughput 5. -/
def fbValid : Nat → Option (List (Option (Measurement Nat))) :=
  fun _ => some [some { perf_throughput := 5 }]

/-- Feedback schedule: every run fails (no measurement at all). -/
def fbNone : Nat → Option (List (Option (Measurement Nat))) :=
  fun _ => none

/-- A concrete composite-enumerator model: environment 0, default
configuration 7, two legal configurations. -/
def emodel0 : EModel Nat Nat :=
  { triton_server_environment := 0, default_config := 7, all_configs := [7, 8] }

/-- Concrete composite feedback schedule: the feedback for the `k`-th
RunConfig is the one-element list `[k]`. -/
def fbC : Nat → List Nat := fun k => [k]

/-!
List bookkeeping lemmas for the buffer arrays.
-/

theorem getD_of_length_le {α : Type} {l : List α} {j : Nat} (d : α)
    (h : l.length ≤ j) : l.getD j d = d := by
  rw [List.getD_eq_getElem?_getD, List.getElem?_eq_none h, Option.getD_none]

theorem getD_set_self {α : Type} {l : List α} {i : Nat} (x d : α)
    (h : i < l.length) : (l.set i x).getD i d = x := by
  rw [List.getD_eq_getElem?_getD, List.getElem?_set_self h, Option.getD_some]

theorem getD_set_ne {α : Type} {l : List α} {i j : Nat} (x d : α)
    (h : i ≠ j) : (l.set i x).getD j d = l.getD j d := by
  rw [List.getD_eq_getElem?_getD, List.getElem?_set_ne h, ← List.getD_eq_getElem?_getD]

theorem length_extendAll {Ms : Type} (ms : List Ms) (bufs : List (List Ms)) :
    (extendAll ms bufs).length = bufs.length := by
  simp [extendAll]

theorem getD_extendAll {Ms : Type} (ms : List Ms) (bufs : List (List Ms)) {j : Nat}
    (h : j < bufs.length) : (extendAll ms bufs).getD j [] = bufs.getD j [] ++ ms := by
  rw [List.getD_eq_getElem?_getD, List.getD_eq_getElem?_getD]
  unfold extendAll
  rw [List.getElem?_map, List.getElem?_eq_getElem h]
  simp

theorem getD_replicate_nil {α : Type} (n j : Nat) :
    (List.replicate n ([] : List α)).getD j [] = [] := by
  rw [List.getD_eq_getElem?_getD, List.getElem?_replicate]
  by_cases h : j < n <;> simp [h]

/-!
The feedback-before-advance invariant of the composite traversal.
-/

theorem genLoop_invariant {Cfg Ms Env : Type} (n : Nat)
    (body : Cfg → CState Ms → CState Ms × List (CEvent Cfg Ms Env)) (depth : Nat)
    (Hb : ∀ c s', CInv s' → EmptyFrom s' (depth + 1) → s'.bufs.length = n →
        CInv (body c s').1 ∧ EmptyFrom (body c s').1 (depth + 1) ∧
        (body c s').1.bufs.length = n ∧ ∀ e ∈ (body c s').2, AskOk e) :
    ∀ (cs : List Cfg) (s : CState Ms), CInv s → EmptyFrom s depth → s.bufs.length = n →
      CInv (genLoop body depth cs s).1 ∧ EmptyFrom (genLoop body depth cs s).1 depth ∧
      (genLoop body depth cs s).1.bufs.length = n ∧
      ∀ e ∈ (genLoop body depth cs s).2, AskOk e := by
  intro cs
  induction cs with
  | nil =>
    intro s hInv hEmp hLen
    refine ⟨hInv, hEmp, hLen, ?_⟩
    intro e he
    simp only [genLoop, List.mem_singleton] at he
    subst he
    exact ⟨hEmp depth le_rfl, hInv.1, hInv.2⟩
  | cons c cs ih =>
    intro s hInv hEmp hLen
    obtain ⟨hInv1, hEmp1, hLen1, hEv1⟩ :=
      Hb c s hInv (fun j hj => hEmp j (Nat.le_of_succ_le hj)) hLen
    simp only [genLoop]
    set r := body c s with hr
    set buf := r.1.bufs.getD depth [] with hbuf
    set s2 : CState Ms :=
      { bufs := r.1.bufs.set depth [],
        recs := r.1.recs.set depth (r.1.recs.getD depth [] ++ buf),
        supplied := r.1.supplied, k := r.1.k } with hs2
    have hInv2 : CInv s2 := by
      constructor
      · simp [hs2, List.length_set, hInv1.1]
      · intro j hj
        simp only [hs2, List.length_set] at hj ⊢
        by_cases hdj : depth = j
        · subst hdj
          rw [getD_set_self _ _ hj, getD_set_self _ _ (hInv1.1 ▸ hj)]
          simpa [hbuf, List.append_assoc] using (hInv1.2 depth hj)
        · rw [getD_set_ne _ _ hdj, getD_set_ne _ _ hdj]
          exact hInv1.2 j hj
    have hEmp2 : EmptyFrom s2 depth := by
      intro j hj
      simp only [hs2]
      rcases Nat.lt_or_ge j (r.1.bufs.length) with hlt | hge
      · by_cases hdj : depth = j
        · subst hdj
          exact getD_set_self _ _ hlt
        · rw [getD_set_ne _ _ hdj]
          exact hEmp1 j (lt_of_le_of_ne hj hdj)
      · exact getD_of_length_le _ (by simpa [List.length_set] using hge)
    have hLen2 : s2.bufs.length = n := by
      simp [hs2, List.length_set, hLen1]
    obtain ⟨hInv3, hEmp3, hLen3, hEv3⟩ := ih s2 hInv2 hEmp2 hLen2
    refine ⟨hInv3, hEmp3, hLen3, ?_⟩
    intro e he
    simp only [List.mem_cons, List.mem_append] at he
    rcases he with he | he | he
    · subst he
      exact ⟨hEmp depth le_rfl, hInv.1, hInv.2⟩
    · exact hEv1 e he
    · rcases he with he | he
      · subst he
        trivial
      · exact hEv3 e he

theorem genSubset_invariant {Cfg Ms Env : Type} (fb : Nat → List Ms) (env : Env)
    (dOnly : Bool) :
    ∀ (models : List (EModel Cfg Env)) (depth : Nat) (pre : List Cfg) (s : CState Ms),
      CInv s → EmptyFrom s depth → s.bufs.length ≤ depth + models.length →
      CInv (genSubset fb env dOnly models depth pre s).1 ∧
      EmptyFrom (genSubset fb env dOnly models depth pre s).1 depth ∧
      (genSubset fb env dOnly models depth pre s).1.bufs.length = s.bufs.length ∧
      ∀ e ∈ (genSubset fb env dOnly models depth pre s).2, AskOk e := by
  intro models
  induction models with
  | nil =>
    intro depth pre s hInv hEmp _
    refine ⟨hInv, hEmp, rfl, ?_⟩
    intro e he
    simp [genSubset] at he
  | cons m rest ih =>
    intro depth pre s hInv hEmp hLen
    show CInv (genLoop _ depth (subCfgs m dOnly) s).1 ∧ _
    apply genLoop_invariant s.bufs.length _ depth _ (subCfgs m dOnly) s hInv hEmp rfl
    intro c s' hInv' hEmp' hLen'
    cases rest with
    | nil =>
      refine ⟨⟨?_, ?_⟩, ?_, ?_, ?_⟩
      · simpa [length_extendAll] using hInv'.1
      · intro j hj
        rw [length_extendAll] at hj
        rw [getD_extendAll _ _ hj]
        simp only []
        rw [← List.append_assoc, hInv'.2 j hj]
      · intro j hj
        apply getD_of_length_le
        rw [length_extendAll, hLen']
        calc s.bufs.length ≤ depth + 1 := by simpa using hLen
          _ ≤ j := hj
      · simpa [length_extendAll] using hLen'
      · intro e he
        simp only [List.mem_cons] at he
        rcases he with he | he | he
        · subst he; trivial
        · subst he; trivial
        · simp at he
    | cons m2 rest2 =>
      have hres := ih (depth + 1) (pre ++ [c]) s' hInv' hEmp'
        (by
          rw [hLen']
          calc s.bufs.length ≤ depth + (m :: m2 :: rest2).length := hLen
            _ = depth + 1 + (m2 :: rest2).length := by simp [Nat.add_comm, Nat.add_assoc, Nat.add_left_comm])
      exact ⟨hres.1, hres.2.1, by rw [hres.2.2.1, hLen'], hres.2.2.2⟩

/-- C1: for the composite enumerator, feedback supplied after a produced
RunConfig is buffered per depth; whenever the sub-enumerator owning a
depth is asked for its next configuration (an `ask` snapshot in the
trace), the feedback buffered for that depth has already been forwarded to
that depth's sub-enumerator and its buffer cleared (the buffer at the
asked depth is empty), and at every moment each depth's sub-enumerator has
received exactly the supplied feedback minus what still sits in that
depth's own buffer — feedback reaches a sub-enumerator only through its
own depth's buffer, before that depth advances. -/
theorem c1_feedback_before_advance {Cfg Ms Env : Type} (fb : Nat → List Ms) (env : Env)
    (models : List (EModel Cfg Env)) :
    ∀ e ∈ getConfigsC fb env models, AskOk e := by
  intro e he
  set s0 : CState Ms :=
    { bufs := List.replicate models.length [], recs := List.replicate models.length [],
      supplied := [], k := 0 } with hs0
  have hInv0 : CInv s0 := by
    refine ⟨by simp [hs0], ?_⟩
    intro j hj
    simp [hs0, getD_replicate_nil]
  have hEmp0 : EmptyFrom s0 0 := by
    intro j hj
    simp [hs0, getD_replicate_nil]
  have hLen0 : s0.bufs.length ≤ 0 + models.length := by simp [hs0]
  have h1 := genSubset_invariant fb env true models 0 [] s0 hInv0 hEmp0 hLen0
  have h2 := genSubset_invariant fb env false models 0 []
      (genSubset fb env true models 0 [] s0).1 h1.1 h1.2.1
      (by rw [h1.2.2.1]; simp [hs0])
  have he' : e ∈ (genSubset fb env true models 0 [] s0).2 ++
      (genSubset fb env false models 0 [] (genSubset fb env true models 0 [] s0).1).2 := by
    simpa [getConfigsC, hs0] using he
  rcases List.mem_append.mp he' with h | h
  · exact h1.2.2.2 e h
  · exact h2.2.2.2 e h

/-- Witness for C1 at a concrete one-model run: the snapshot of the ask
that advances depth 0 after the first produced RunConfig has an empty
buffer and its sub-enumerator has received all supplied feedback. -/
theorem c1_feedback_before_advance_witness :
    AskOk (CEvent.ask 0 [[]] [[0]] [0] : CEvent Nat Nat Nat) :=
  c1_feedback_before_advance fbC 0 [emodel0] _ (by decide)

/-!
The RunConfigs produced by the composite traversal.
-/

theorem producedOf_nil {Cfg Ms Env : Type} :
    producedOf ([] : List (CEvent Cfg Ms Env)) = [] := rfl

theorem producedOf_cons_produce {Cfg Ms Env : Type} (env : Env) (cfgs : List Cfg)
    (tr : List (CEvent Cfg Ms Env)) :
    producedOf (CEvent.produce env cfgs :: tr) = (env, cfgs) :: producedOf tr := rfl

theorem producedOf_cons_feedback {Cfg Ms Env : Type} (ms : List Ms)
    (tr : List (CEvent Cfg Ms Env)) :
    producedOf (@CEvent.feedback Cfg Ms Env ms :: tr) = producedOf tr := rfl

theorem producedOf_cons_forward {Cfg Ms Env : Type} (depth : Nat) (ms : List Ms)
    (tr : List (CEvent Cfg Ms Env)) :
    producedOf (@CEvent.forward Cfg Ms Env depth ms :: tr) = producedOf tr := rfl

theorem producedOf_cons_ask {Cfg Ms Env : Type} (depth : Nat) (bufs recs : List (List Ms))
    (supplied : List Ms) (tr : List (CEvent Cfg Ms Env)) :
    producedOf (@CEvent.ask Cfg Ms Env depth bufs recs supplied :: tr)
      = producedOf tr := rfl

theorem producedOf_append {Cfg Ms Env : Type} (a b : List (CEvent Cfg Ms Env)) :
    producedOf (a ++ b) = producedOf a ++ producedOf b :=
  List.filterMap_append a b _

theorem flatten_map_singleton {α β : Type} (f : α → β) (l : List α) :
    (l.map (fun x => [f x])).flatten = l.map f := by
  induction l with
  | nil => simp
  | cons a l ih => simp [ih]

theorem genLoop_produced {Cfg Ms Env : Type}
    (body : Cfg → CState Ms → CState Ms × List (CEvent Cfg Ms Env)) (depth : Nat)
    (P : Cfg → List (Env × List Cfg))
    (Hb : ∀ c s', producedOf (body c s').2 = P c) :
    ∀ (cs : List Cfg) (s : CState Ms),
      producedOf (genLoop body depth cs s).2 = (cs.map P).flatten := by
  intro cs
  induction cs with
  | nil =>
    intro s
    simp [genLoop, producedOf]
  | cons c cs ih =>
    intro s
    simp only [genLoop]
    rw [producedOf_cons_ask, producedOf_append, producedOf_cons_forward, Hb c s, ih]
    simp

theorem genSubset_produced {Cfg Ms Env : Type} (fb : Nat → List Ms) (env : Env)
    (dOnly : Bool) :
    ∀ (models : List (EModel Cfg Env)) (depth : Nat) (pre : List Cfg) (s : CState Ms),
      producedOf (genSubset fb env dOnly models depth pre s).2
        = producedList env dOnly models pre := by
  intro models
  induction models with
  | nil =>
    intro depth pre s
    simp [genSubset, producedList, producedOf_nil]
  | cons m rest ih =>
    intro depth pre s
    cases rest with
    | nil =>
      show producedOf (genLoop _ depth (subCfgs m dOnly) s).2 = _
      rw [genLoop_produced _ depth (fun c => [(env, pre ++ [c])])]
      · simp [producedList, flatten_map_singleton]
      · intro c s'
        rfl
    | cons m2 rest2 =>
      show producedOf (genLoop _ depth (subCfgs m dOnly) s).2 = _
      rw [genLoop_produced _ depth
        (fun c => producedList env dOnly (m2 :: rest2) (pre ++ [c]))]
      · simp [producedList]
      · intro c s'
        exact ih (depth + 1) (pre ++ [c]) s'

theorem producedList_default {Cfg Env : Type} (env : Env) :
    ∀ (m0 : EModel Cfg Env) (ms : List (EModel Cfg Env)) (pre : List Cfg),
      producedList env true (m0 :: ms) pre
        = [(env, pre ++ (m0 :: ms).map EModel.default_config)] := by
  intro m0 ms
  induction ms generalizing m0 with
  | nil =>
    intro pre
    simp [producedList, subCfgs]
  | cons m2 ms2 ih =>
    intro pre
    show ((subCfgs m0 true).map
      (fun c => producedList env true (m2 :: ms2) (pre ++ [c]))).flatten = _
    simp [subCfgs, ih m2 (pre ++ [m0.default_config])]

theorem producedList_length {Cfg Env : Type} (env : Env) (dOnly : Bool) :
    ∀ (m0 : EModel Cfg Env) (ms : List (EModel Cfg Env)) (pre : List Cfg),
      (producedList env dOnly (m0 :: ms) pre).length
        = ((m0 :: ms).map (fun m => (subCfgs m dOnly).length)).prod := by
  intro m0 ms
  induction ms generalizing m0 with
  | nil =>
    intro pre
    simp [producedList]
  | cons m2 ms2 ih =>
    intro pre
    show (((subCfgs m0 dOnly).map
      (fun c => producedList env dOnly (m2 :: ms2) (pre ++ [c]))).flatten).length = _
    rw [List.length_flatten, List.map_map]
    have hmap : (List.length ∘ fun c => producedList env dOnly (m2 :: ms2) (pre ++ [c]))
        = fun c => ((m2 :: ms2).map (fun m => (subCfgs m dOnly).length)).prod := by
      funext c
      exact ih m2 (pre ++ [c])
    rw [hmap, List.map_const']
    simp [Nat.mul_comm]

theorem producedList_env {Cfg Env : Type} (env : Env) (dOnly : Bool) :
    ∀ (models : List (EModel Cfg Env)) (pre : List Cfg),
      ∀ p ∈ producedList env dOnly models pre, p.1 = env := by
  intro models
  induction models with
  | nil =>
    intro pre p hp
    simp [producedList] at hp
  | cons m rest ih =>
    intro pre p hp
    cases rest with
    | nil =>
      simp [producedList] at hp
      obtain ⟨c, _, hc⟩ := hp
      rw [← hc]
    | cons m2 rest2 =>
      simp only [producedList, List.mem_flatten, List.mem_map] at hp
      obtain ⟨l, ⟨c, _, hl⟩, hpl⟩ := hp
      exact ih (pre ++ [c]) p (hl ▸ hpl)

/-- C3: for every non-degenerate list of models (the enumerator indexes
`models[0]` at construction, so at least one model exists), the first
produced RunConfig of the composite enumerator is the all-default
combination, and the total number of produced RunConfigs is 1 (default
phase) plus the product of the per-model configuration counts (full
phase). -/
theorem c3_first_default_and_total_count {Cfg Ms Env : Type} (fb : Nat → List Ms)
    (env : Env) (m0 : EModel Cfg Env) (ms : List (EModel Cfg Env)) :
    (producedOf (getConfigsC fb env (m0 :: ms))).head?
        = some (env, (m0 :: ms).map EModel.default_config) ∧
    (producedOf (getConfigsC fb env (m0 :: ms))).length
        = 1 + ((m0 :: ms).map (fun m => m.all_configs.length)).prod := by
  have h : producedOf (getConfigsC fb env (m0 :: ms))
      = producedList env true (m0 :: ms) [] ++ producedList env false (m0 :: ms) [] := by
    simp only [getConfigsC]
    rw [producedOf_append, genSubset_produced, genSubset_produced]
  rw [h, producedList_default]
  refine ⟨rfl, ?_⟩
  rw [List.length_append, producedList_length]
  simp [subCfgs]

/-!
Server-environment consistency.
-/

theorem determine_env_ok {M Env : Type} [DecidableEq Env] (envOf : M → Env) (m0 : M)
    (ms : List M) (h : ∀ m ∈ m0 :: ms, envOf m = envOf m0) :
    determine_triton_server_env envOf (m0 :: ms) = Except.ok (envOf m0) := by
  simp only [determine_triton_server_env]
  rw [if_pos]
  rw [List.all_eq_true]
  intro m hm
  exact decide_eq_true (h m hm)

theorem determine_env_mismatch {M Env : Type} [DecidableEq Env] (envOf : M → Env) (m0 : M)
    (ms : List M) (h : ¬ ∀ m ∈ m0 :: ms, envOf m = envOf m0) :
    determine_triton_server_env envOf (m0 :: ms) = Except.error TritonErr.mismatch := by
  simp only [determine_triton_server_env]
  rw [if_neg]
  intro hall
  apply h
  intro m hm
  exact of_decide_eq_true (List.all_eq_true.mp hall m hm)

theorem producedOf_getConfigsC {Cfg Ms Env : Type} (fb : Nat → List Ms) (env : Env)
    (models : List (EModel Cfg Env)) :
    producedOf (getConfigsC fb env models)
      = producedList env true models [] ++ producedList env false models [] := by
  simp only [getConfigsC]
  rw [producedOf_append, genSubset_produced, genSubset_produced]

theorem foldl_add_env {Env : Type} (f : Nat × ModelProfileSpec Env → ModelRunConfigD)
    (l : List (Nat × ModelProfileSpec Env)) (rc0 : RunConfigD Env) :
    (l.foldl (fun rc im => rc.add_model_run_config (f im)) rc0).triton_env
      = rc0.triton_env := by
  induction l generalizing rc0 with
  | nil => rfl
  | cons a l ih =>
    show (l.foldl _ (rc0.add_model_run_config (f a))).triton_env = _
    rw [ih]
    rfl

theorem foldl_add_mrcs {Env : Type} (f : Nat × ModelProfileSpec Env → ModelRunConfigD)
    (l : List (Nat × ModelProfileSpec Env)) (rc0 : RunConfigD Env) :
    (l.foldl (fun rc im => rc.add_model_run_config (f im)) rc0).model_run_configs
      = rc0.model_run_configs ++ l.map f := by
  induction l generalizing rc0 with
  | nil => simp
  | cons a l ih =>
    show (l.foldl _ (rc0.add_model_run_config (f a))).model_run_configs = _
    rw [ih]
    simp [RunConfigD.add_model_run_config]

theorem get_next_run_config_env {Coord Thr Env NbhCfg : Type}
    (ctx : DriverContext Coord Thr Env NbhCfg) (c : Coord) :
    (get_next_run_config ctx c).triton_env = ctx.triton_env := by
  unfold get_next_run_config
  rw [foldl_add_env]

theorem driver_pull_env {Coord Thr Env NbhCfg : Type}
    (ctx : DriverContext Coord Thr Env NbhCfg) (s : DriverState Coord Thr)
    (rc : RunConfigD Env) (h : driver_pull ctx s = PullOutcome.config rc) :
    rc.triton_env = ctx.triton_env := by
  unfold driver_pull at h
  cases hc : s.coordinate_to_measure with
  | none =>
    rw [hc] at h
    cases h
  | some c =>
    rw [hc] at h
    cases h
    exact get_next_run_config_env ctx c

/-- C4: with at least one model (both constructors index `models[0]`),
if all models report an equal server environment then
`determine_triton_server_env` succeeds with model 0's environment,
construction of either generator succeeds, and that environment is carried
in every produced RunConfig; if any model's environment differs from model
0's, the check raises at construction for either generator and no
RunConfig is ever produced (the construction result is the exception, not
a sequence). -/
theorem c4_server_environment_consistency
    {M Env : Type} [DecidableEq Env] (envOf : M → Env) (m0 : M) (ms : List M)
    {Cfg Ms Coord Thr NbhCfg : Type}
    (fb : Nat → List Ms) (e0 : EModel Cfg Env) (es : List (EModel Cfg Env))
    (sc : SearchConfigM Coord NbhCfg) (d0 : ModelProfileSpec Env)
    (ds : List (ModelProfileSpec Env))
    (factory : NbhCfg → CoordinateData Coord Thr → Coord → NeighborhoodOps Coord Thr)
    (vn : ModelProfileSpec Env → ParamCombo → String) :
    ((∀ m ∈ m0 :: ms, envOf m = envOf m0) →
        determine_triton_server_env envOf (m0 :: ms) = Except.ok (envOf m0)) ∧
    ((¬ ∀ m ∈ m0 :: ms, envOf m = envOf m0) →
        determine_triton_server_env envOf (m0 :: ms) = Except.error TritonErr.mismatch) ∧
    ((∀ m ∈ e0 :: es, m.triton_server_environment = e0.triton_server_environment) →
        run_composite fb (e0 :: es)
            = Except.ok (getConfigsC fb e0.triton_server_environment (e0 :: es)) ∧
        ∀ p ∈ producedOf (getConfigsC fb e0.triton_server_environment (e0 :: es)),
          p.1 = e0.triton_server_environment) ∧
    ((¬ ∀ m ∈ e0 :: es, m.triton_server_environment = e0.triton_server_environment) →
        run_composite fb (e0 :: es) = Except.error TritonErr.mismatch) ∧
    ((∀ m ∈ d0 :: ds, m.triton_server_environment = d0.triton_server_environment) →
        ∃ ctx : DriverContext Coord Thr Env NbhCfg,
          make_driver_context sc (d0 :: ds) factory vn = Except.ok ctx ∧
          ctx.triton_env = d0.triton_server_environment ∧
          ∀ (s : DriverState Coord Thr) (rc : RunConfigD Env),
            driver_pull ctx s = PullOutcome.config rc →
              rc.triton_env = d0.triton_server_environment) ∧
    ((¬ ∀ m ∈ d0 :: ds, m.triton_server_environment = d0.triton_server_environment) →
        make_driver_context sc (d0 :: ds) factory vn = Except.error TritonErr.mismatch) := by
  refine ⟨?_, ?_, ?_, ?_, ?_, ?_⟩
  · intro h
    exact determine_env_ok envOf m0 ms h
  · intro h
    exact determine_env_mismatch envOf m0 ms h
  · intro h
    constructor
    · unfold run_composite
      rw [determine_env_ok _ e0 es h]
      rfl
    · intro p hp
      rw [producedOf_getConfigsC] at hp
      rcases List.mem_append.mp hp with hp | hp
      · exact producedList_env _ true (e0 :: es) [] p hp
      · exact producedList_env _ false (e0 :: es) [] p hp
  · intro h
    unfold run_composite
    rw [determine_env_mismatch _ e0 es h]
    rfl
  · intro h
    refine ⟨{ search_config := sc, models := d0 :: ds,
              triton_env := d0.triton_server_environment,
              neighborhood := factory, variant_name := vn }, ?_, rfl, ?_⟩
    · unfold make_driver_context
      rw [determine_env_ok _ d0 ds h]
      rfl
    · intro s rc hrc
      exact driver_pull_env _ s rc hrc
  · intro h
    unfold make_driver_context
    rw [determine_env_mismatch _ d0 ds h]
    rfl

/-- Witness for C4 at concrete inputs: a matching pair of models succeeds
with the shared environment, and a mismatching pair fails construction of
both generators. -/
theorem c4_server_environment_consistency_witness :
    determine_triton_server_env (fun n : Nat => n) [0, 0] = Except.ok 0 ∧
    determine_triton_server_env (fun n : Nat => n) [0, 1] = Except.error TritonErr.mismatch := by
  constructor
  · exact (@c4_server_environment_consistency Nat Nat _ (fun n : Nat => n) 0 [0]
      Nat Nat Nat Nat Unit
      fbC emodel0 [] searchCfg0 model0 [] flatNbh (fun _ _ => ("v"))).1 (by decide)
  · exact (@c4_server_environment_consistency Nat Nat _ (fun n : Nat => n) 0 [1]
      Nat Nat Nat Nat Unit
      fbC emodel0 [] searchCfg0 model0 [] flatNbh (fun _ _ => ("v"))).2.1 (by decide)

/-!
CoordinateData and `set_last_results` component lemmas.
-/

theorem get_visit_count_increment_self {Coord Thr : Type} [DecidableEq Coord]
    (cd : CoordinateData Coord Thr) (c : Coord) :
    (cd.increment_visit_count c).get_visit_count c = cd.get_visit_count c + 1 := by
  simp [CoordinateData.increment_visit_count, CoordinateData.get_visit_count]

theorem get_visit_count_increment_ne {Coord Thr : Type} [DecidableEq Coord]
    (cd : CoordinateData Coord Thr) (c c' : Coord) (h : c' ≠ c) :
    (cd.increment_visit_count c).get_visit_count c' = cd.get_visit_count c' := by
  simp [CoordinateData.increment_visit_count, CoordinateData.get_visit_count, h]

theorem get_throughput_increment {Coord Thr : Type} [DecidableEq Coord]
    (cd : CoordinateData Coord Thr) (c c' : Coord) :
    (cd.increment_visit_count c).get_throughput c' = cd.get_throughput c' := rfl

theorem get_throughput_set_self {Coord Thr : Type} [DecidableEq Coord]
    (cd : CoordinateData Coord Thr) (c : Coord) (t : Thr) :
    (cd.set_throughput c t).get_throughput c = some t := by
  simp [CoordinateData.set_throughput, CoordinateData.get_throughput]

theorem get_throughput_set_ne {Coord Thr : Type} [DecidableEq Coord]
    (cd : CoordinateData Coord Thr) (c c' : Coord) (t : Thr) (h : c' ≠ c) :
    (cd.set_throughput c t).get_throughput c' = cd.get_throughput c' := by
  simp [CoordinateData.set_throughput, CoordinateData.get_throughput, h]

/-- The visit counts after `set_last_results` are, in every branch, those
of the state after the unconditional increment of the measured
coordinate. -/
theorem set_last_results_visits {Coord Thr : Type} [DecidableEq Coord]
    (s : DriverState Coord Thr) (ms : Option (List (Option (Measurement Thr))))
    (c : Coord) (hc : s.coordinate_to_measure = some c) :
    (set_last_results s ms).1.coordinate_data.visit_counts
      = (s.coordinate_data.increment_visit_count c).visit_counts := by
  unfold set_last_results
  rw [hc]
  cases ms with
  | none => rfl
  | some l =>
    cases l with
    | nil => rfl
    | cons m0 rest =>
      cases m0 with
      | none => rfl
      | some m =>
        by_cases h : (some m :: rest).length = 1
        · simp only [if_pos h]
          rfl
        · simp only [if_neg h]

/-- C5: every call to `set_last_results` increments the visit count of the
coordinate currently being measured by exactly one, and touches no other
coordinate's visit count, whether the supplied measurement is valid,
invalid or absent. -/
theorem c5_visit_count_increment {Coord Thr : Type} [DecidableEq Coord]
    (s : DriverState Coord Thr) (ms : Option (List (Option (Measurement Thr))))
    (c : Coord) (hc : s.coordinate_to_measure = some c) :
    (set_last_results s ms).1.coordinate_data.get_visit_count c
        = s.coordinate_data.get_visit_count c + 1 ∧
    ∀ c', c' ≠ c → (set_last_results s ms).1.coordinate_data.get_visit_count c'
        = s.coordinate_data.get_visit_count c' := by
  have h := set_last_results_visits s ms c hc
  constructor
  · show (set_last_results s ms).1.coordinate_data.visit_counts c = _
    rw [h]
    exact get_visit_count_increment_self s.coordinate_data c
  · intro c' hne
    show (set_last_results s ms).1.coordinate_data.visit_counts c' = _
    rw [h]
    exact get_visit_count_increment_ne s.coordinate_data c c' hne

/-- Witness for C5: on the concrete initial state with absent feedback,
the measured coordinate's visit count goes from 0 to 1. -/
theorem c5_visit_count_increment_witness :
    (set_last_results (init_state ctxFlat) none).1.coordinate_data.get_visit_count 0
      = (init_state ctxFlat).coordinate_data.get_visit_count 0 + 1 :=
  (c5_visit_count_increment (init_state ctxFlat) none 0 rfl).1

/-- C10: `set_last_results` accepts at most one measurement: a list whose
first element is a measurement passes the assertion exactly when its
length is one; a longer such list raises `AssertionError` and records no
throughput; a `None` list, or a list whose first element is `None`, is
accepted without asserting. -/
theorem c10_assert_single_measurement {Coord Thr : Type} [DecidableEq Coord]
    (s : DriverState Coord Thr) (c : Coord) (hc : s.coordinate_to_measure = some c)
    (m : Measurement Thr) (rest tail : List (Option (Measurement Thr))) :
    ((set_last_results s (some (some m :: rest))).2 = Except.ok () ↔ rest = []) ∧
    (rest ≠ [] →
      (set_last_results s (some (some m :: rest))).2 = Except.error PyErr.assertionError ∧
      (set_last_results s (some (some m :: rest))).1.coordinate_data.throughputs
        = s.coordinate_data.throughputs) ∧
    (set_last_results s none).2 = Except.ok () ∧
    (set_last_results s (some (none :: tail))).2 = Except.ok () := by
  have hrest : ∀ (h : rest ≠ []),
      (set_last_results s (some (some m :: rest))).2 = Except.error PyErr.assertionError ∧
      (set_last_results s (some (some m :: rest))).1.coordinate_data.throughputs
        = s.coordinate_data.throughputs := by
    intro h
    have hlen : ¬ (some m :: rest).length = 1 := by
      cases rest with
      | nil => exact absurd rfl h
      | cons a l => simp
    unfold set_last_results
    rw [hc]
    dsimp only
    rw [if_neg hlen]
    exact ⟨rfl, rfl⟩
  refine ⟨?_, hrest, ?_, ?_⟩
  · constructor
    · intro hok
      by_contra h
      rw [(hrest h).1] at hok
      cases hok
    · intro h
      subst h
      unfold set_last_results
      rw [hc]
      simp
  · unfold set_last_results
    rw [hc]
  · unfold set_last_results
    rw [hc]

/-- Witness for C10: on the concrete initial state, a two-measurement
list fails the assertion while the singleton list is accepted. -/
theorem c10_assert_single_measurement_witness :
    (set_last_results (init_state ctxFlat)
        (some [some { perf_throughput := 5 }, some { perf_throughput := 6 }])).2
      = Except.error PyErr.assertionError ∧
    (set_last_results (init_state ctxFlat) (some [some { perf_throughput := 5 }])).2
      = Except.ok () := by
  constructor
  · exact ((c10_assert_single_measurement (init_state ctxFlat) 0 rfl
      { perf_throughput := 5 } [some { perf_throughput := 6 }] []).2.1 (by simp)).1
  · exact (c10_assert_single_measurement (init_state ctxFlat) 0 rfl
      { perf_throughput := 5 } [] []).1.mpr rfl

/-!
The step of the hill-climbing driver never touches the recorded data.
-/

theorem handle_invalid_coordinate_data {Coord Thr : Type} (s : DriverState Coord Thr) :
    (handle_invalid_last_results s).coordinate_data = s.coordinate_data := by
  unfold handle_invalid_last_results
  cases s.coordinate_to_measure <;> rfl

theorem take_step_coordinate_data {Coord Thr Env NbhCfg : Type} [DecidableEq Coord]
    (ctx : DriverContext Coord Thr Env NbhCfg) (s : DriverState Coord Thr) :
    (take_step ctx s).coordinate_data = s.coordinate_data := rfl

theorem pick_coordinate_to_init_coordinate_data {Coord Thr : Type}
    (s : DriverState Coord Thr) :
    (pick_coordinate_to_init s).coordinate_data = s.coordinate_data := rfl

theorem step_generator_coordinate_data {Coord Thr Env NbhCfg : Type} [DecidableEq Coord]
    (ctx : DriverContext Coord Thr Env NbhCfg) (s : DriverState Coord Thr) :
    (step_generator ctx s).coordinate_data = s.coordinate_data := by
  have hb : ∀ s' : DriverState Coord Thr,
      ((if s'.coordinate_to_measure = none then { s' with done := true } else s') :
        DriverState Coord Thr).coordinate_data = s'.coordinate_data := by
    intro s'
    by_cases h : s'.coordinate_to_measure = none <;> simp [h]
  unfold step_generator
  cases hg : get_last_results s with
  | none =>
    simp only [hg]
    rw [hb, handle_invalid_coordinate_data]
  | some t =>
    simp only [hg]
    by_cases he : s.nbh.enough_coordinates s.coordinate_data
    · rw [hb, if_pos he, take_step_coordinate_data]
    · rw [hb, if_neg he, pick_coordinate_to_init_coordinate_data]

/-- The throughputs after `set_last_results` are unchanged except in the
valid single-measurement branch, where exactly the measured coordinate is
set. -/
theorem set_last_results_throughputs {Coord Thr : Type} [DecidableEq Coord]
    (s : DriverState Coord Thr) (ms : Option (List (Option (Measurement Thr))))
    (c : Coord) (hne : (set_last_results s ms).1.coordinate_data.get_throughput c
        ≠ s.coordinate_data.get_throughput c) :
    s.coordinate_to_measure = some c ∧
    ∃ m : Measurement Thr, ms = some [some m] ∧
      (set_last_results s ms).1.coordinate_data.get_throughput c
        = some m.perf_throughput := by
  cases hc : s.coordinate_to_measure with
  | none =>
    exfalso
    apply hne
    unfold set_last_results
    rw [hc]
  | some c0 =>
    have hthr0 : ∀ t, ((s.coordinate_data.increment_visit_count c0).set_throughput c0 t).get_throughput c0 = some t := by
      intro t
      rw [get_throughput_set_self]
    cases ms with
    | none =>
      exfalso
      apply hne
      unfold set_last_results
      rw [hc]
      rfl
    | some l =>
      cases l with
      | nil =>
        exfalso
        apply hne
        unfold set_last_results
        rw [hc]
        rfl
      | cons m0 rest =>
        cases m0 with
        | none =>
          exfalso
          apply hne
          unfold set_last_results
          rw [hc]
          rfl
        | some m =>
          by_cases hlen : (some m :: rest).length = 1
          · have hrest : rest = [] := by
              cases rest with
              | nil => rfl
              | cons a l => simp at hlen
            subst hrest
            have hres : (set_last_results s (some [some m])).1.coordinate_data
                = (s.coordinate_data.increment_visit_count c0).set_throughput c0
                    m.perf_throughput := by
              unfold set_last_results
              rw [hc]
              rfl
            by_cases hcc : c = c0
            · subst hcc
              exact ⟨rfl, m, rfl, by rw [hres, get_throughput_set_self]⟩
            · exfalso
              apply hne
              rw [hres, get_throughput_set_ne _ _ _ _ hcc, get_throughput_increment]
          · exfalso
            apply hne
            have hres : (set_last_results s (some (some m :: rest))).1.coordinate_data
                = s.coordinate_data.increment_visit_count c0 := by
              unfold set_last_results
              rw [hc]
              dsimp only
              rw [if_neg hlen]
            rw [hres, get_throughput_increment]

/-- C6: CoordinateData never reports a throughput before a valid
measurement: initially no coordinate has a throughput, `set_last_results`
changes a coordinate's reported throughput only when it is the coordinate
being measured and the feedback is a valid single measurement (whose
throughput is then stored), and the driver's step never changes the
recorded data at all. -/
theorem c6_throughput_only_after_valid {Coord Thr Env NbhCfg : Type} [DecidableEq Coord]
    (ctx : DriverContext Coord Thr Env NbhCfg) (s : DriverState Coord Thr)
    (ms : Option (List (Option (Measurement Thr)))) (c : Coord) :
    (init_state ctx).coordinate_data.get_throughput c = none ∧
    ((set_last_results s ms).1.coordinate_data.get_throughput c
        ≠ s.coordinate_data.get_throughput c →
      s.coordinate_to_measure = some c ∧
      ∃ m : Measurement Thr, ms = some [some m] ∧
        (set_last_results s ms).1.coordinate_data.get_throughput c
          = some m.perf_throughput) ∧
    (step_generator ctx s).coordinate_data = s.coordinate_data := by
  refine ⟨rfl, ?_, step_generator_coordinate_data ctx s⟩
  intro hne
  exact set_last_results_throughputs s ms c hne

/-- Witness for C6: on the concrete initial state, recording the valid
measurement with throughput 5 changes the reported throughput of the
measured coordinate, so the characterization applies and yields the stored
value. -/
theorem c6_throughput_only_after_valid_witness :
    (init_state ctxFlat).coordinate_data.get_throughput 0 = none ∧
    (init_state ctxFlat).coordinate_to_measure = some 0 ∧
    ∃ m : Measurement Nat, fbValid 0 = some [some m] ∧
      (set_last_results (init_state ctxFlat) (fbValid 0)).1.coordinate_data.get_throughput 0
        = some m.perf_throughput := by
  have h := c6_throughput_only_after_valid ctxFlat (init_state ctxFlat) (fbValid 0) 0
  have h2 := h.2.1 (by
    show some 5 ≠ none
    simp)
  exact ⟨h.1, h2.1, h2.2⟩

/-- C8: when no throughput is recorded for the coordinate just measured
(absent or invalid result), the step makes the next coordinate to measure
the nearest unvisited neighbor in the current neighborhood, and the center
coordinate is unchanged. -/
theorem c8_invalid_fallback {Coord Thr Env NbhCfg : Type} [DecidableEq Coord]
    (ctx : DriverContext Coord Thr Env NbhCfg) (s : DriverState Coord Thr) (c : Coord)
    (hc : s.coordinate_to_measure = some c)
    (hthr : s.coordinate_data.get_throughput c = none) :
    (step_generator ctx s).coordinate_to_measure
        = s.nbh.get_nearest_unvisited_neighbor s.coordinate_data c ∧
    (step_generator ctx s).current_coordinate = s.current_coordinate := by
  have hg : get_last_results s = none := by
    unfold get_last_results
    rw [hc]
    exact hthr
  have hh : handle_invalid_last_results s
      = { s with coordinate_to_measure :=
            s.nbh.get_nearest_unvisited_neighbor s.coordinate_data c } := by
    unfold handle_invalid_last_results
    rw [hc]
  unfold step_generator
  simp only [hg]
  rw [hh]
  by_cases h2 : s.nbh.get_nearest_unvisited_neighbor s.coordinate_data c = none
  · simp [h2]
  · simp [h2]

/-- Witness for C8: on the concrete initial state (no throughput yet
recorded), the step falls back to the (exhausted) nearest unvisited
neighbor and keeps the center. -/
theorem c8_invalid_fallback_witness :
    (step_generator ctxFlat (init_state ctxFlat)).coordinate_to_measure
        = (init_state ctxFlat).nbh.get_nearest_unvisited_neighbor
            (init_state ctxFlat).coordinate_data 0 ∧
    (step_generator ctxFlat (init_state ctxFlat)).current_coordinate
        = (init_state ctxFlat).current_coordinate :=
  c8_invalid_fallback ctxFlat (init_state ctxFlat) 0 rfl rfl

/-- Dictionary update evaluates to the last value written for a key, or
falls through to the configuration being updated. -/
theorem update_config_apply (l : List (String × PerfVal)) (cfg : String → Option PerfVal)
    (q : String) :
    update_config l cfg q
      = (match last_value q l with
         | some v => some v
         | none => cfg q) := by
  induction l generalizing cfg with
  | nil => rfl
  | cons kv l ih =>
    show update_config l (fun q' => if kv.1 = q' then some kv.2 else cfg q') q = _
    rw [ih]
    cases hlv : last_value q l with
    | some v => simp [last_value, hlv]
    | none =>
      by_cases hk : kv.1 = q <;> simp [last_value, hlv, hk]

/-- C9: the RunConfig produced for a coordinate the driver chooses to
measure is assembled per model by resolving the coordinate through the
Dimension tables: the batch size and instance count enter the generated
model configuration, the concurrency enters the perf-analyzer
configuration (unless the model's own perf-analyzer flags override that
key, which the second `update_config` call lets them do), and the
ModelRunConfigs — one per model, in model order, each named after its
model — are wrapped into one RunConfig carrying the shared server
environment. -/
theorem c9_coordinate_translation {Coord Thr Env NbhCfg : Type}
    (ctx : DriverContext Coord Thr Env NbhCfg) (s : DriverState Coord Thr) (c : Coord)
    (i : Nat) (m : ModelProfileSpec Env)
    (hs : s.coordinate_to_measure = some c)
    (hm : ctx.models[i]? = some m) :
    driver_pull ctx s = PullOutcome.config (get_next_run_config ctx c) ∧
    (get_next_run_config ctx c).triton_env = ctx.triton_env ∧
    (get_next_run_config ctx c).model_run_configs.length = ctx.models.length ∧
    (get_next_run_config ctx c).model_run_configs[i]?
        = some (get_next_model_run_config ctx c i m) ∧
    (get_next_model_run_config ctx c i m).model_name = m.model_name ∧
    (get_next_model_run_config ctx c i m).model_config.combo.max_batch_size
        = (ctx.search_config.dimension_values c i).max_batch_size ∧
    (get_next_model_run_config ctx c i m).model_config.combo.instance_count
        = (ctx.search_config.dimension_values c i).instance_count ∧
    (get_next_model_run_config ctx c i m).perf_config ("concurrency-range")
        = (match last_value ("concurrency-range") m.perf_analyzer_flags with
           | some v => some v
           | none => some (PerfVal.num (ctx.search_config.dimension_values c i).concurrency)) := by
  have hmrcs : (get_next_run_config ctx c).model_run_configs
      = (ctx.models.enum).map
          (fun im => get_next_model_run_config ctx c im.1 im.2) := by
    unfold get_next_run_config
    rw [foldl_add_mrcs]
    rfl
  refine ⟨?_, get_next_run_config_env ctx c, ?_, ?_, rfl, rfl, rfl, ?_⟩
  · unfold driver_pull
    rw [hs]
  · rw [hmrcs, List.length_map, List.enum_length]
  · rw [hmrcs, List.getElem?_map, List.getElem?_enum, hm]
    rfl
  · show update_config m.perf_analyzer_flags _ ("concurrency-range") = _
    rw [update_config_apply]
    cases hlv : last_value ("concurrency-range") m.perf_analyzer_flags with
    | some v => rfl
    | none =>
      rw [update_config_apply]
      rfl

/-- Witness for C9 at the concrete driver: the pull for the initial
coordinate yields the assembled RunConfig, whose single ModelRunConfig
carries batch size, instance count and concurrency resolved from the
Dimension tables. -/
theorem c9_coordinate_translation_witness :
    driver_pull ctxFlat (init_state ctxFlat)
        = PullOutcome.config (get_next_run_config ctxFlat 0) ∧
    (get_next_run_config ctxFlat 0).model_run_configs.length = 1 ∧
    (get_next_model_run_config ctxFlat 0 0 model0).model_config.combo.max_batch_size
        = (ctxFlat.search_config.dimension_values 0 0).max_batch_size := by
  have h := c9_coordinate_translation ctxFlat (init_state ctxFlat) 0 0 model0 rfl rfl
  exact ⟨h.1, h.2.2.1, h.2.2.2.2.2.1⟩

/-- C2 (evaluating the code at the failing input): on the concrete flat
landscape, the feedback for the first RunConfig is a valid measurement,
the neighborhood has enough samples, and `calculate_new_coordinate`
returns the current center, so `_determine_if_done` sets the done flag on
that step — yet `get_configs` is a bare `while True:` loop that never
consults `_done`, so the very pull that ran this step still yields a
further RunConfig (for the repeated center) instead of terminating, and so
does every later pull. -/
theorem c2_done_step_still_yields :
    (driver_states ctxFlat fbValid 1).done = true ∧
    driver_outputs ctxFlat fbValid 1
      = PullOutcome.config (get_next_run_config ctxFlat 0) ∧
    driver_outputs ctxFlat fbValid 2
      = PullOutcome.config (get_next_run_config ctxFlat 0) := by
  refine ⟨rfl, rfl, rfl⟩

/-- C7 (evaluating the code at the failing input): on the concrete flat
landscape with failed feedback, `get_nearest_unvisited_neighbor` returns
`None`, `_step` marks the generator done ("No coordinate to measure.
Exiting") — but the `while True:` loop of `get_configs` neither breaks nor
raises `StopIteration`: the next pull calls `_get_next_run_config` with a
`None` coordinate and crashes in the Dimension lookup instead of ending
the sequence cleanly. -/
theorem c7_exhaustion_crashes_instead_of_ending :
    (driver_states ctxFlat fbNone 1).done = true ∧
    (driver_states ctxFlat fbNone 1).coordinate_to_measure = none ∧
    driver_outputs ctxFlat fbNone 1 = PullOutcome.crash := by
  refine ⟨rfl, rfl, rfl⟩
